import Mathlib

/-!
Verification of the feature-cache-and-search subsystem of `app.py`
(repository `Shruzana/similar_images`).

The Python source is shallowly embedded as follows:

* real-valued feature vectors become `List ℝ`; the feature matrix becomes
  `List (List ℝ)` (row-major, as in the `np.array(features)` built in
  `compute_and_cache_features`);
* the opaque MobileNetV2 embedding model (`extract_features`' use of
  `model.predict`) becomes an explicit function parameter
  `embed : String → List ℝ` from the image path to the raw feature vector;
* `os.walk(root_dir)` output becomes an explicit enumeration
  `Walk := List (String × List String)` of `(subdir, filenames)` pairs:
  the order of that enumeration is OS-dependent, which is why the code sorts;
* the two cache artifacts `features.npy` / `filenames.npy` become a record
  with two `Option` fields; `np.save`/`np.load` are modelled as an ideal
  store (numpy's binary `.npy` round-trip is bit-exact);
* `sklearn.preprocessing.normalize` and
  `sklearn.metrics.pairwise.cosine_similarity` are embedded from sklearn's
  semantics, including the zero-norm guard (`norms[norms == 0.0] = 1.0`
  inside `normalize`, which `cosine_similarity` also uses on each side);
* `np.argsort` (default `kind='quicksort'`, i.e. introsort) is treated in two
  ways: the ranking function `find_similar_images` is parametric in the
  argsort function (numpy documents only that the returned indices sort the
  array, with no stability guarantee for the default kind), and additionally
  numpy's actual introsort for argsort (`aquicksort_` in
  `numpy/core/src/npysort/quicksort.c.src`, together with its `aheapsort_`
  depth-limit fallback) is embedded operationally so that its concrete
  tie-breaking behaviour can be evaluated;
* Streamlit calls (`st.error`, `st.progress`, the `stqdm` wrapper,
  `@st.cache_data` memoisation) are pure observers with no effect on the
  returned data and are dropped from the embedding.
-/

namespace SimilarImages

/-! ## Numeric model: sklearn `normalize` and `cosine_similarity` -/

/-- Dot product of two vectors (`np.dot` on equal-length rows; `zipWith`
truncates at the shorter length, matching the rectangular-matrix use here). -/
def dot (a b : List ℝ) : ℝ := (List.zipWith (· * ·) a b).sum

/-- Sum of squares of a vector's entries. -/
def sumSq (v : List ℝ) : ℝ := (v.map (fun x => x * x)).sum

/-- Euclidean (L2) norm: `np.sqrt(sum(x*x))`. -/
noncomputable def l2norm (v : List ℝ) : ℝ := Real.sqrt (sumSq v)

/-- `sklearn.preprocessing.normalize` on a single row with `norm='l2'`:
divide by the L2 norm, except that zero norms are replaced by `1.0` first
(`norms[norms == 0.0] = 1.0` in sklearn), so a zero row is returned
unchanged rather than causing a division by zero. -/
noncomputable def sklearnNormalizeVec (v : List ℝ) : List ℝ :=
  let n := l2norm v
  let n := if n = 0 then 1 else n
  v.map (fun x => x / n)

/-- Row-wise `sklearn.preprocessing.normalize(_, axis=1)` on a matrix. -/
noncomputable def sklearnNormalizeRows (m : List (List ℝ)) : List (List ℝ) :=
  m.map sklearnNormalizeVec

/-- Cosine similarity of two vectors as computed by
`sklearn.metrics.pairwise.cosine_similarity`: both sides are L2-normalised
(with the zero-norm guard) and then dotted. -/
noncomputable def cosPair (q r : List ℝ) : ℝ :=
  dot (sklearnNormalizeVec q) (sklearnNormalizeVec r)

/-- `cosine_similarity([q], m)[0]`: the row of similarities of `q` against
every row of `m`. -/
noncomputable def cosine_similarity (q : List ℝ) (m : List (List ℝ)) : List ℝ :=
  m.map (cosPair q)

/-! ## Corpus scanner: `get_all_image_files` -/

/-- The output of `os.walk(root_dir)`, with the (unused) directory component
dropped: a list of `(subdir, filenames)` pairs.  The enumeration order is
OS-dependent. -/
abbrev Walk := List (String × List String)

/-- `os.path.join(subdir, f)` for the plain relative paths produced here. -/
def pathJoin (d f : String) : String := d ++ "/" ++ f

/-- Python's `str.lower()` (code-point map; on the ASCII extension
suffixes compared here this agrees with Unicode lowercasing). -/
def strToLower (s : String) : String := String.mk (s.data.map Char.toLower)

/-- Python's `s.endswith(suffix)` on the underlying character lists. -/
def strEndsWith (s suffix : String) : Bool :=
  s.data.drop (s.data.length - suffix.data.length) == suffix.data

/-- Python's string `<=` — lexicographic comparison of code points. -/
def charListLe : List Char → List Char → Bool
  | [], _ => true
  | _ :: _, [] => false
  | a :: as, b :: bs =>
    if a < b then true else if b < a then false else charListLe as bs

/-- String comparison `a <= b` as used by Python's `sorted`. -/
def strLe (a b : String) : Bool := charListLe a.data b.data

/-- `strLe` as a decidable relation (the order used by `sorted`). -/
def strLeP (a b : String) : Prop := strLe a b = true

instance : DecidableRel strLeP :=
  fun a b => inferInstanceAs (Decidable (strLe a b = true))

/-- `f.lower().endswith(('.jpg', '.jpeg', '.png', '.bmp', '.tiff'))`. -/
def isImageFile (f : String) : Bool :=
  strEndsWith (strToLower f) ".jpg" || strEndsWith (strToLower f) ".jpeg" ||
  strEndsWith (strToLower f) ".png" || strEndsWith (strToLower f) ".bmp" ||
  strEndsWith (strToLower f) ".tiff"

/-- All `(subdir, filename)` pairs enumerated by the walk, in walk order
(before any filtering). -/
def walkPairs (fs : Walk) : List (String × String) :=
  (fs.map (fun e => e.2.map (fun f => (e.1, f)))).flatten

/-- `get_all_image_files(root_dir)`: walk, filter by extension, join the
path, and return `sorted(files)` — Python's stable lexicographic sort on
the full path string.  (Embedded as an insertion sort; `strLeP` is a total,
transitive, antisymmetric order on strings, so every sort that is correct
for it — Python's timsort included — produces this unique output.) -/
def get_all_image_files (fs : Walk) : List String :=
  let files := ((walkPairs fs).filter (fun e => isImageFile e.2)).map
    (fun e => pathJoin e.1 e.2)
  files.insertionSort strLeP

/-! ## Feature store: `compute_and_cache_features` / `load_image_features` -/

/-- The two durable cache artifacts.  `featCache` stands for `features.npy`
and `nameCache` for `filenames.npy`; `none` means the file does not exist. -/
structure CacheState where
  featCache : Option (List (List ℝ))
  nameCache : Option (List String)

/-- The empty durable store (neither artifact exists). -/
def emptyCache : CacheState := { featCache := none, nameCache := none }

/-- `np.save(FEAT_CACHE, features); np.save(NAME_CACHE, filenames)`:
both artifacts are (over)written. -/
def saveCache (features : List (List ℝ)) (filenames : List String)
    (_c : CacheState) : CacheState :=
  { featCache := some features, nameCache := some filenames }

/-- `extract_features(file_path, model)`: the opaque embedding model applied
to the image at the given path (decode, resize, preprocess, predict,
flatten are all inside the opaque `embed`). -/
def extract_features (embed : String → List ℝ) (file_path : String) : List ℝ :=
  embed file_path

/-- `compute_and_cache_features(image_dir, model)`:
scan; if no files were found, report via `st.error` and return `[], []`
without touching the cache; otherwise embed every file in scan order
(the `stqdm` progress wrapper is a pure observer and is dropped),
L2-normalise the rows, save both artifacts, and return the pair. -/
noncomputable def compute_and_cache_features (fs : Walk)
    (embed : String → List ℝ) (c : CacheState) :
    (List String × List (List ℝ)) × CacheState :=
  let filenames := get_all_image_files fs
  if filenames.length = 0 then
    (([], []), c)
  else
    let features := filenames.map (extract_features embed)
    let features := sklearnNormalizeRows features
    ((filenames, features), saveCache features filenames c)

/-- `load_image_features(image_dir, model)`: if both cache artifacts exist,
deserialize and return them (no validation of any kind); otherwise rebuild.
The `@st.cache_data` memoisation decorator is a pure performance layer and
is dropped. -/
noncomputable def load_image_features (fs : Walk) (embed : String → List ℝ)
    (c : CacheState) : (List String × List (List ℝ)) × CacheState :=
  match c.featCache, c.nameCache with
  | some features, some filenames => ((filenames, features), c)
  | some _, none => compute_and_cache_features fs embed c
  | none, some _ => compute_and_cache_features fs embed c
  | none, none => compute_and_cache_features fs embed c

/-! ## Similarity ranker: `find_similar_images` -/

/-- `TOP_N = 5`. -/
def TOP_N : ℕ := 5

/-- The similarity row `sims = cosine_similarity([qf], features_db)[0]`
computed by `find_similar_images` for a given model, query path and matrix
(`qf` is the query embedding re-normalised by `normalize([qf])[0]`). -/
noncomputable def simsOf (embed : String → List ℝ) (query_img_path : String)
    (features_db : List (List ℝ)) : List ℝ :=
  cosine_similarity (sklearnNormalizeVec (extract_features embed query_img_path))
    features_db

/-- `-sims`, the key vector passed to `np.argsort`. -/
noncomputable def negSims (embed : String → List ℝ) (query_img_path : String)
    (features_db : List (List ℝ)) : List ℝ :=
  (simsOf embed query_img_path features_db).map (fun s => -s)

/-- `find_similar_images(query_img_path, features_db, filenames_db, model,
top_n)`.  The function is parametric in `args`, the embedding of
`np.argsort` (numpy guarantees that the returned indices sort the key
array ascending; the default `kind='quicksort'` carries no stability
guarantee).  `top_idx = np.argsort(-sims)[:top_n]` (Python slicing clamps
to the available length) and the result is
`[(filenames_db[i], sims[i]) for i in top_idx]`. -/
noncomputable def find_similar_images (args : List ℝ → List ℕ)
    (embed : String → List ℝ) (query_img_path : String)
    (features_db : List (List ℝ)) (filenames_db : List String)
    (top_n : ℕ) : List (String × ℝ) :=
  let sims := simsOf embed query_img_path features_db
  let top_idx := (args (negSims embed query_img_path features_db)).take top_n
  top_idx.map (fun i => (filenames_db.getD i "", sims.getD i 0))

/-! ## numpy's introsort for `np.argsort` (default `kind='quicksort'`)

Operational embedding of `aquicksort_` (and its `aheapsort_` depth-limit
fallback) from `numpy/core/src/npysort/quicksort.c.src` /
`heapsort.c.src`, the generic argsort path used by `np.argsort` with the
default kind.  The C code manipulates an index array `tosort` (initially
`arange(n)`) and only ever reads the value array `v` at indices held in
`tosort`; since `v` is never written, every comparison `LT(v[a], v[b])` is
a function of the two original indices `a`, `b`.  The embedding therefore
takes the comparator `ltv : ℕ → ℕ → Bool` with `ltv a b = (v[a] < v[b])`
and is purely an index-array computation.  Loops are given explicit fuel;
the fuel bounds are generous enough that they are never exhausted on the
runs considered here (the C loops always terminate thanks to the pivot and
left-edge sentinels).  `SMALL_QUICKSORT = 15` and
`depth_limit = npy_get_msb(num) * 2` as in `npysort_common.h`. -/

/-- `INTP_SWAP(*a, *b)` on the `tosort` index array. -/
def intpSwap (t : Array ℕ) (i j : ℕ) : Array ℕ :=
  let vi := t.get! i
  let vj := t.get! j
  (t.set! i vj).set! j vi

/-- `do ++pi; while (LT(v[*pi], vp))`: advance `pi` past keys below the
pivot (the pivot copy parked at `pr-1` is the sentinel). -/
def scanUp (ltv : ℕ → ℕ → Bool) (vp : ℕ) (t : Array ℕ) : ℕ → ℕ → ℕ
  | i, 0 => i + 1
  | i, fuel + 1 =>
    let i := i + 1
    if ltv (t.get! i) vp then scanUp ltv vp t i fuel else i

/-- `do --pj; while (LT(vp, v[*pj]))`: move `pj` down past keys above the
pivot (the median-of-3 low element at `pl` is the sentinel). -/
def scanDown (ltv : ℕ → ℕ → Bool) (vp : ℕ) (t : Array ℕ) : ℕ → ℕ → ℕ
  | j, 0 => j - 1
  | j, fuel + 1 =>
    let j := j - 1
    if ltv vp (t.get! j) then scanDown ltv vp t j fuel else j

/-- The partition crossing loop of `aquicksort_`: scan up, scan down,
`if (pi >= pj) break`, else swap and repeat.  Returns the final array and
`pi`. -/
def partLoop (ltv : ℕ → ℕ → Bool) (vp : ℕ) (t : Array ℕ) :
    ℕ → ℕ → ℕ → Array ℕ × ℕ
  | pi, _, 0 => (t, pi)
  | pi, pj, fuel + 1 =>
    let pi := scanUp ltv vp t pi (t.size + 1)
    let pj := scanDown ltv vp t pj (t.size + 1)
    if pj ≤ pi then (t, pi)
    else partLoop ltv vp (intpSwap t pi pj) pi pj fuel

/-- One `aquicksort_` partition step on the subrange `[pl, pr]`:
median-of-3 pivot selection, pivot parked at `pr - 1`, crossing loop, and
final swap of the pivot into position `pi`. -/
def partitionStep (ltv : ℕ → ℕ → Bool) (t : Array ℕ) (pl pr : ℕ) :
    Array ℕ × ℕ :=
  let pm := pl + (pr - pl) / 2
  let t := if ltv (t.get! pm) (t.get! pl) then intpSwap t pm pl else t
  let t := if ltv (t.get! pr) (t.get! pm) then intpSwap t pr pm else t
  let t := if ltv (t.get! pm) (t.get! pl) then intpSwap t pm pl else t
  let vp := t.get! pm
  let t := intpSwap t pm (pr - 1)
  let r := partLoop ltv vp t pl (pr - 1) t.size
  let t := intpSwap r.1 r.2 (pr - 1)
  (t, r.2)

/-- Inner shifting loop of the insertion sort:
`while (pj > pl && LT(vp, v[*pk])) { *pj-- = *pk--; }`.  Returns the array
with elements shifted and the final write position `pj`. -/
def insertShift (ltv : ℕ → ℕ → Bool) (vi : ℕ) (t : Array ℕ) :
    ℕ → ℕ → ℕ → Array ℕ × ℕ
  | _, pj, 0 => (t, pj)
  | pl, pj, fuel + 1 =>
    if pl < pj then
      if ltv vi (t.get! (pj - 1)) then
        insertShift ltv vi (t.set! pj (t.get! (pj - 1))) pl (pj - 1) fuel
      else (t, pj)
    else (t, pj)

/-- Outer loop of the insertion sort over `pi = pl+1 … pr`. -/
def insertionLoop (ltv : ℕ → ℕ → Bool) (t : Array ℕ) :
    ℕ → ℕ → ℕ → ℕ → Array ℕ
  | _, _, _, 0 => t
  | pl, pi, pr, fuel + 1 =>
    if pi ≤ pr then
      let vi := t.get! pi
      let r := insertShift ltv vi t pl pi (t.size + 1)
      insertionLoop ltv (r.1.set! r.2 vi) pl (pi + 1) pr fuel
    else t

/-- The insertion sort of `aquicksort_` on the subrange `[pl, pr]`. -/
def insertionSortRange (ltv : ℕ → ℕ → Bool) (t : Array ℕ) (pl pr : ℕ) :
    Array ℕ :=
  insertionLoop ltv t pl (pl + 1) pr (t.size + 1)

/-- 1-based read `a[k]` of `aheapsort_`, where `a = tosort + pl - 1`. -/
def heapGet (t : Array ℕ) (pl k : ℕ) : ℕ := t.get! (pl + k - 1)

/-- 1-based write `a[k] = x` of `aheapsort_`. -/
def heapSet (t : Array ℕ) (pl k x : ℕ) : Array ℕ := t.set! (pl + k - 1) x

/-- The sift-down loop shared by both phases of `aheapsort_`:
starting from hole `i` with child `j`, move the larger child up while it
exceeds `tmp`; returns the array and the final hole position. -/
def heapSift (ltv : ℕ → ℕ → Bool) (tmp : ℕ) (pl : ℕ) (t : Array ℕ) :
    ℕ → ℕ → ℕ → ℕ → Array ℕ × ℕ
  | i, _, _, 0 => (t, i)
  | i, j, nn, fuel + 1 =>
    if j ≤ nn then
      let j := if j < nn && ltv (heapGet t pl j) (heapGet t pl (j + 1))
        then j + 1 else j
      if ltv tmp (heapGet t pl j) then
        heapSift ltv tmp pl (heapSet t pl i (heapGet t pl j)) j (2 * j) nn fuel
      else (t, i)
    else (t, i)

/-- Heapify phase of `aheapsort_`: `for (l = n >> 1; l > 0; --l)`. -/
def heapBuild (ltv : ℕ → ℕ → Bool) (pl nn : ℕ) (t : Array ℕ) :
    ℕ → ℕ → Array ℕ
  | _, 0 => t
  | l, fuel + 1 =>
    if l = 0 then t
    else
      let tmp := heapGet t pl l
      let r := heapSift ltv tmp pl t l (2 * l) nn (t.size + 1)
      heapBuild ltv pl nn (heapSet r.1 pl r.2 tmp) (l - 1) fuel

/-- Extraction phase of `aheapsort_`: `for (; n > 1;)`. -/
def heapExtract (ltv : ℕ → ℕ → Bool) (pl : ℕ) (t : Array ℕ) :
    ℕ → ℕ → Array ℕ
  | _, 0 => t
  | nn, fuel + 1 =>
    if nn ≤ 1 then t
    else
      let tmp := heapGet t pl nn
      let t := heapSet t pl nn (heapGet t pl 1)
      let nn := nn - 1
      let r := heapSift ltv tmp pl t 1 2 nn (t.size + 1)
      heapExtract ltv pl (heapSet r.1 pl r.2 tmp) nn fuel

/-- `aheapsort_(vv, pl, num)`: heapsort of the `num`-element subrange of
`tosort` starting at position `pl` (used as the introsort depth-limit
fallback). -/
def aheapsortRange (ltv : ℕ → ℕ → Bool) (t : Array ℕ) (pl nn : ℕ) :
    Array ℕ :=
  let t := heapBuild ltv pl nn t (nn / 2) (t.size + 1)
  heapExtract ltv pl t nn (t.size + 1)

/-- The main loop of `aquicksort_`: partition while the range is longer
than `SMALL_QUICKSORT = 15` elements minus one (`pr - pl > 15`), recursing
into the smaller side and pushing the larger side on an explicit stack;
fall back to heapsort when the depth budget is exhausted
(`depth_limit-- < 0`); insertion-sort small ranges; pop the stack until it
is empty. -/
def aquicksortLoop (ltv : ℕ → ℕ → Bool) :
    Array ℕ → ℕ → ℕ → ℤ → List (ℕ × ℕ) → ℕ → Array ℕ
  | t, _, _, _, _, 0 => t
  | t, pl, pr, depth, stack, fuel + 1 =>
    if 15 < pr - pl then
      if depth < 0 then
        let t := aheapsortRange ltv t pl (pr - pl + 1)
        match stack with
        | [] => t
        | (pl', pr') :: rest =>
          aquicksortLoop ltv t pl' pr' (depth - 1) rest fuel
      else
        let r := partitionStep ltv t pl pr
        let t := r.1
        let pi := r.2
        if pi - pl < pr - pi then
          aquicksortLoop ltv t pl (pi - 1) (depth - 1) ((pi + 1, pr) :: stack) fuel
        else
          aquicksortLoop ltv t (pi + 1) pr (depth - 1) ((pl, pi - 1) :: stack) fuel
    else
      let t := insertionSortRange ltv t pl pr
      match stack with
      | [] => t
      | (pl', pr') :: rest =>
        aquicksortLoop ltv t pl' pr' depth rest fuel

/-- `np.argsort` for a key vector of length `n`, given the index-level
comparator `ltv a b = (v[a] < v[b])`: run `aquicksort_` on
`tosort = arange(n)` with `depth_limit = npy_get_msb(n) * 2`.  The outer
fuel `2*n + 64` dominates the number of loop iterations (each partition
strictly splits a range, so there are fewer than `n` partitions and at
most as many stack pops). -/
def npArgsortIdx (ltv : ℕ → ℕ → Bool) (n : ℕ) : Array ℕ :=
  aquicksortLoop ltv (Array.range n) 0 (n - 1) (2 * (Nat.log2 n : ℤ)) []
    (2 * n + 64)

/-- `np.argsort(v)` on a real key vector: numpy's introsort driven by the
comparisons of the keys (float comparison on the similarity scores; the
NaN handling of numpy's `LT` is irrelevant here since cosine similarities
of finite vectors are finite). -/
noncomputable def argsortNp (v : List ℝ) : List ℕ :=
  (npArgsortIdx (fun i j => decide (v.getD i 0 < v.getD j 0)) v.length).toList

/-- numpy's documented contract for `np.argsort` on a key vector `v`:
the result is a permutation of `0, …, len v - 1` along which the keys are
non-decreasing.  (Nothing more is guaranteed for the default
`kind='quicksort'`; in particular no stability.) -/
def ArgsortOK (v : List ℝ) (p : List ℕ) : Prop :=
  p.Perm (List.range v.length) ∧
  p.Pairwise (fun i j => v.getD i 0 ≤ v.getD j 0)

/-! ## Query orchestrator for uploaded images (script lines 122-145)

When a file is uploaded, the script materialises it to
`temp/<uploaded.name>` (`query_img.save(query_path)`), runs
`find_similar_images`, renders the results, and only then — as the last
statement of the straight-line script, with no `try`/`finally` — calls
`os.remove(query_path)`.  `extract_features` on the query path can raise
(e.g. an unreadable image in `load_img`); an exception aborts the
Streamlit script run, so every statement after the raising one is skipped.
The model threads that exception through `Except` and reports whether the
temporary file still exists when the run ends. -/

/-- Failures that `find_similar_images` can surface for the query image
(decode errors raised inside `extract_features`). -/
inductive QueryError
  | imageDecodeError

/-- The uploaded-query tail of the script: returns the script outcome and
whether `temp/<name>` still exists afterwards.  `embedQuery` is the
(fallible) computation of the raw query embedding; on success the ranking
proceeds exactly as `find_similar_images` with `qf` fixed to the computed
vector. -/
noncomputable def uploadedQueryRun (args : List ℝ → List ℕ)
    (embedQuery : Except QueryError (List ℝ))
    (features_db : List (List ℝ)) (filenames_db : List String) :
    Except QueryError (List (String × ℝ)) × Bool :=
  -- query_img.save(query_path): the temp file now exists
  match embedQuery with
  | .error e =>
    -- the exception propagates out of find_similar_images; the script run
    -- aborts and `os.remove(query_path)` on line 145 never executes
    (.error e, true)
  | .ok qraw =>
    -- results = find_similar_images(...); ...; os.remove(query_path)
    (.ok (find_similar_images args (fun _ => qraw) "temp/upload"
        features_db filenames_db TOP_N), false)

/-! ## Concrete instances used by witnesses and counterexamples -/

/-- A corpus scan with a single image file. -/
def oneImageWalk : Walk := [("images", ["a.jpg"])]

/-- A walk whose files match no image extension. -/
def noImageWalk : Walk := [("root", ["notes.txt"])]

/-- A second no-image walk (for the C2 counterexample). -/
def noImageWalk2 : Walk := [("root", ["README.md", "data.csv"])]

/-- A model that embeds every image as the unit vector `[1, 0]`. -/
noncomputable def embedOne : String → List ℝ := fun _ => [1, 0]

/-- A model that embeds every image as the zero vector. -/
noncomputable def embedZero : String → List ℝ := fun _ => [0, 0]

/-- A cache whose artifacts are corrupt: five filenames against a
four-row feature matrix. -/
noncomputable def mismatchedCache : CacheState :=
  { featCache := some [[1], [1], [1], [1]],
    nameCache := some ["a", "b", "c", "d", "e"] }

/-- A second corrupt cache (three names, one row), for the C3 witness. -/
noncomputable def mismatchedCache2 : CacheState :=
  { featCache := some [[2]], nameCache := some ["x", "y", "z"] }

/-- A two-image feature matrix of pre-normalised rows. -/
noncomputable def twoRowDb : List (List ℝ) := [[1, 0], [0, 1]]

/-- Display names for `twoRowDb`. -/
def twoNames : List String := ["a.jpg", "b.jpg"]

/-- A constant argsort oracle, correct for the keys `[-1, 0]`. -/
def constArgsort : List ℝ → List ℕ := fun _ => [0, 1]

/-- Seventeen identical pre-normalised corpus rows: every corpus entry has
the same embedding `[1, 0]` as the query, so all seventeen cosine scores
tie at exactly `1.0`. -/
noncomputable def seventeenRowDb : List (List ℝ) := List.replicate 17 [1, 0]

/-- Filenames for the seventeen-row corpus, in scan order. -/
def seventeenNames : List String :=
  ["i0", "i1", "i2", "i3", "i4", "i5", "i6", "i7", "i8", "i9", "i10",
   "i11", "i12", "i13", "i14", "i15", "i16"]

/-- The comparator that `np.argsort` sees on the key vector
`-sims = [-1.0] * 17` (all keys inside the array are equal, so every
in-range comparison is false; `getD`'s out-of-range default `0` exceeds
`-1`, never reached by the algorithm): a computable form used to evaluate
the introsort in the kernel. -/
def tieCmp17 : ℕ → ℕ → Bool := fun i j => decide (i < 17) && decide (17 ≤ j)

/-- A walk of one directory in one enumeration order (C5 witness). -/
def permWalkA : Walk := [("r", ["b.jpg", "a.PNG", "c.txt"])]

/-- The same directory contents enumerated in a different order, as a
different run of `os.walk` may produce. -/
def permWalkB : Walk := [("r", ["a.PNG", "c.txt", "b.jpg"])]

/-- Conclusion predicate for the corpus-scan contract: the scan output
contains exactly the joined paths of the walked files whose names pass the
case-insensitive extension allow-list, and it is sorted by the
lexicographic string order. -/
def ScanSpec (fs : Walk) : Prop :=
  (∀ p, p ∈ get_all_image_files fs ↔
    ∃ e ∈ walkPairs fs, isImageFile e.2 = true ∧ p = pathJoin e.1 e.2) ∧
  List.Sorted strLeP (get_all_image_files fs)

/-- Conclusion predicate for the ranking contract: the result has exactly
`min top_n n` entries (a corpus smaller than `top_n` just gives a shorter
result) and is ordered by non-increasing similarity score. -/
def RankedOK (args : List ℝ → List ℕ) (embed : String → List ℝ)
    (query_img_path : String) (features_db : List (List ℝ))
    (filenames_db : List String) (top_n : ℕ) : Prop :=
  (find_similar_images args embed query_img_path features_db filenames_db
      top_n).length = min top_n features_db.length ∧
  (find_similar_images args embed query_img_path features_db filenames_db
      top_n).Pairwise (fun a b => b.2 ≤ a.2)

/-- Conclusion predicate for the index-alignment invariant: after the
build, the filenames list and the feature matrix have equal length, row
`i` is the normalised embedding of `filenames[i]`, and a subsequent cache
load returns exactly the pair the build produced. -/
def BuildAligned (fs : Walk) (embed : String → List ℝ) (c : CacheState) :
    Prop :=
  (compute_and_cache_features fs embed c).1.1.length =
    (compute_and_cache_features fs embed c).1.2.length ∧
  (∀ i, i < (compute_and_cache_features fs embed c).1.1.length →
    (compute_and_cache_features fs embed c).1.2.getD i [] =
      sklearnNormalizeVec (extract_features embed
        ((compute_and_cache_features fs embed c).1.1.getD i ""))) ∧
  load_image_features fs embed (compute_and_cache_features fs embed c).2 =
    compute_and_cache_features fs embed c

/-! # Theorems -/

/-- `getD` through `map`, at in-range indices. -/
theorem getD_map_of_lt {α β : Type _} (f : α → β) :
    ∀ (l : List α) (i : ℕ), i < l.length → ∀ (d : α) (d' : β),
      (l.map f).getD i d' = f (l.getD i d)
  | _ :: _, 0, _, _, _ => rfl
  | _ :: l, i + 1, h, d, d' => by
    simpa using getD_map_of_lt f l i (by simpa using h) d d'

/-- Shape of the build result when the scan is empty. -/
theorem build_empty_eq (fs : Walk) (embed : String → List ℝ)
    (c : CacheState) (h : get_all_image_files fs = []) :
    compute_and_cache_features fs embed c = (([], []), c) := by
  simp [compute_and_cache_features, h]

/-- Shape of the build result when the scan is non-empty: the filenames
are the scan output and the rows are the normalised embeddings, in scan
order; both artifacts are saved. -/
theorem build_rows (fs : Walk) (embed : String → List ℝ) (c : CacheState)
    (hlen : ¬((get_all_image_files fs).length = 0)) :
    compute_and_cache_features fs embed c =
      ((get_all_image_files fs,
        (get_all_image_files fs).map
          (fun fn => sklearnNormalizeVec (extract_features embed fn))),
       saveCache ((get_all_image_files fs).map
          (fun fn => sklearnNormalizeVec (extract_features embed fn)))
         (get_all_image_files fs) c) := by
  simp only [compute_and_cache_features, sklearnNormalizeRows,
    if_neg hlen, List.map_map]
  rfl

/-- C2 (amended): scanning a root with zero matching files makes
`compute_and_cache_features` display an error message and return the empty
pair `([], [])`, leaving the cache artifacts unwritten; it does not raise
any exception (there is no `EmptyCorpusError` in the code — the top-level
script halts the session afterwards via `st.stop()`). -/
theorem compute_empty_scan_returns_empty_pair (fs : Walk)
    (embed : String → List ℝ) (c : CacheState)
    (h : get_all_image_files fs = []) :
    compute_and_cache_features fs embed c = (([], []), c) :=
  build_empty_eq fs embed c h

/-- Witness for `compute_empty_scan_returns_empty_pair` at a concrete
extension-free walk. -/
theorem compute_empty_scan_returns_empty_pair_witness :
    get_all_image_files noImageWalk = [] ∧
    compute_and_cache_features noImageWalk embedOne emptyCache =
      (([], []), emptyCache) :=
  ⟨by decide, compute_empty_scan_returns_empty_pair _ _ _ (by decide)⟩

/-- Counterexample to C2 as stated: on a directory with zero matching
files the build RETURNS a result — the pair `([], [])` with the cache left
untouched — rather than failing with an `EmptyCorpusError` (no such
exception exists anywhere in `app.py`; `st.error` only renders a
message). -/
theorem empty_corpus_build_returns_result :
    compute_and_cache_features noImageWalk2 embedOne emptyCache =
      (([], []), emptyCache) := by
  have h : get_all_image_files noImageWalk2 = [] := by decide
  simp [compute_and_cache_features, h]

/-- C3 (amended): on a cache hit `load_image_features` deserializes both
artifacts and returns them completely unvalidated — whatever pair is
stored comes back unchanged (so nothing is ever truncated, but a length
mismatch raises no `CacheCorruptError` either; no such check or exception
exists in the code). -/
theorem load_cache_hit_returns_pair_unvalidated (fs : Walk)
    (embed : String → List ℝ) (feats : List (List ℝ))
    (names : List String) (c : CacheState)
    (h1 : c.featCache = some feats) (h2 : c.nameCache = some names) :
    load_image_features fs embed c = ((names, feats), c) := by
  obtain ⟨cf, cn⟩ := c
  dsimp at h1 h2
  subst h1
  subst h2
  rfl

/-- Witness for `load_cache_hit_returns_pair_unvalidated` at a concrete
(already mismatched) cache. -/
theorem load_cache_hit_returns_pair_unvalidated_witness :
    mismatchedCache2.featCache = some [[2]] ∧
    mismatchedCache2.nameCache = some ["x", "y", "z"] ∧
    load_image_features [] embedOne mismatchedCache2 =
      ((["x", "y", "z"], [[2]]), mismatchedCache2) :=
  ⟨rfl, rfl, load_cache_hit_returns_pair_unvalidated _ _ _ _ _ rfl rfl⟩

/-- Counterexample to C3 as stated: a cache artifact pair of five
filenames against a four-row feature matrix is loaded and returned as-is
— five names, four rows — with no `CacheCorruptError` (the code performs
no length validation at all on a cache hit). -/
theorem corrupt_cache_loaded_without_error :
    load_image_features [] embedOne mismatchedCache =
      ((["a", "b", "c", "d", "e"], [[1], [1], [1], [1]]), mismatchedCache) ∧
    (["a", "b", "c", "d", "e"] : List String).length = 5 ∧
    ([[1], [1], [1], [1]] : List (List ℝ)).length = 4 :=
  ⟨rfl, rfl, rfl⟩

/-- C7: after a fresh build over a non-empty corpus the filenames list and
the feature matrix have equal length, row `i` of the matrix is the
L2-normalised embedding of `filenames[i]`, and the pair returned by a
subsequent cache reload is exactly the pair the build produced (so the
alignment also holds after reload). -/
theorem build_alignment_and_reload (fs : Walk) (embed : String → List ℝ)
    (c : CacheState) (h : get_all_image_files fs ≠ []) :
    BuildAligned fs embed c := by
  have hlen : ¬((get_all_image_files fs).length = 0) := by
    simpa [List.length_eq_zero] using h
  unfold BuildAligned
  rw [build_rows fs embed c hlen]
  refine ⟨by simp, ?_, rfl⟩
  intro i hi
  simp only [List.length_map] at hi
  rw [getD_map_of_lt _ _ i (by simpa using hi) ""]

/-- Witness for `build_alignment_and_reload` at a one-image corpus. -/
theorem build_alignment_and_reload_witness :
    get_all_image_files oneImageWalk ≠ [] ∧
    BuildAligned oneImageWalk embedOne emptyCache :=
  ⟨by decide, build_alignment_and_reload _ _ _ (by decide)⟩

/-- C8: saving the two cache artifacts and then loading them returns
exactly the original pair (the `np.save`/`np.load` binary `.npy`
round-trip is modelled as exact, which it is bit-for-bit for both the
filename array and the float feature matrix). -/
theorem save_load_round_trip (fs : Walk) (embed : String → List ℝ)
    (feats : List (List ℝ)) (names : List String) (c : CacheState) :
    load_image_features fs embed (saveCache feats names c) =
      ((names, feats), saveCache feats names c) := rfl

/-! ### Facts about the L2 normalisation -/

theorem sumSq_cons (x : ℝ) (v : List ℝ) :
    sumSq (x :: v) = x * x + sumSq v := by
  simp [sumSq]

theorem sumSq_nonneg (v : List ℝ) : 0 ≤ sumSq v := by
  refine List.sum_nonneg ?_
  intro y hy
  obtain ⟨x, _, rfl⟩ := List.mem_map.mp hy
  exact mul_self_nonneg x

theorem sumSq_eq_zero_of_all_zero {v : List ℝ} (h : ∀ x ∈ v, x = 0) :
    sumSq v = 0 := by
  refine List.sum_eq_zero ?_
  intro y hy
  obtain ⟨x, hx, rfl⟩ := List.mem_map.mp hy
  rw [h x hx, mul_zero]

theorem sumSq_pos_of_ex_ne {v : List ℝ} (h : ∃ x ∈ v, x ≠ 0) :
    0 < sumSq v := by
  obtain ⟨x, hx, hne⟩ := h
  have h1 : x * x ≤ sumSq v := by
    refine List.single_le_sum ?_ _ (List.mem_map.mpr ⟨x, hx, rfl⟩)
    intro y hy
    obtain ⟨z, _, rfl⟩ := List.mem_map.mp hy
    exact mul_self_nonneg z
  exact lt_of_lt_of_le (mul_self_pos.mpr hne) h1

theorem sumSq_map_div (v : List ℝ) (c : ℝ) :
    sumSq (v.map (fun x => x / c)) = sumSq v / (c * c) := by
  induction v with
  | nil => simp [sumSq]
  | cons x v ih =>
    simp only [List.map_cons, sumSq_cons, ih, div_mul_div_comm, add_div]

/-- A vector with a nonzero entry is taken to an exactly unit-norm vector
by sklearn's `normalize`. -/
theorem l2norm_normalize_of_ex_ne {v : List ℝ} (h : ∃ x ∈ v, x ≠ 0) :
    l2norm (sklearnNormalizeVec v) = 1 := by
  have hS : 0 < sumSq v := sumSq_pos_of_ex_ne h
  have hl : 0 < l2norm v := Real.sqrt_pos.mpr hS
  simp only [sklearnNormalizeVec, if_neg (ne_of_gt hl)]
  show Real.sqrt (sumSq (v.map (fun x => x / l2norm v))) = 1
  rw [sumSq_map_div, show l2norm v * l2norm v = sumSq v from
    Real.mul_self_sqrt (le_of_lt (sumSq_pos_of_ex_ne h)),
    div_self (ne_of_gt hS), Real.sqrt_one]

/-- sklearn's zero-norm guard: an all-zero vector is returned unchanged. -/
theorem normalize_zero_vector {v : List ℝ} (h : ∀ x ∈ v, x = 0) :
    sklearnNormalizeVec v = v := by
  have hl : l2norm v = 0 := by
    simp [l2norm, sumSq_eq_zero_of_all_zero h, Real.sqrt_zero]
  simp only [sklearnNormalizeVec, if_pos hl]
  simp

theorem dot_all_zero_right (a : List ℝ) :
    ∀ (b : List ℝ), (∀ x ∈ b, x = 0) → dot a b = 0 := by
  induction a with
  | nil => intro b _; rfl
  | cons x a ih =>
    intro b hb
    cases b with
    | nil => rfl
    | cons y b =>
      have hy : y = 0 := hb y (List.mem_cons_self y b)
      have hrest : dot a b = 0 := ih b (fun z hz => hb z (List.mem_cons_of_mem y hz))
      simp [dot] at hrest ⊢
      simp [hy, hrest]

/-- C6 (amended): the unit-norm invariant holds for every embedding whose
raw feature vector is nonzero — both for every row stored by a build and
for the normalised query embedding.  (A zero raw vector is the exception:
sklearn's zero-norm guard leaves it at norm 0, see the counterexample.) -/
theorem normalization_invariant_nonzero (fs : Walk)
    (embed : String → List ℝ) (c : CacheState) :
    (∀ i, i < (compute_and_cache_features fs embed c).1.1.length →
      (∃ x ∈ embed ((compute_and_cache_features fs embed c).1.1.getD i ""),
        x ≠ 0) →
      l2norm ((compute_and_cache_features fs embed c).1.2.getD i []) = 1) ∧
    (∀ qraw : List ℝ, (∃ x ∈ qraw, x ≠ 0) →
      l2norm (sklearnNormalizeVec qraw) = 1) := by
  constructor
  · intro i hi hx
    by_cases hlen : (get_all_image_files fs).length = 0
    · rw [build_empty_eq fs embed c (List.length_eq_zero.mp hlen)] at hi
      simp at hi
    · rw [build_rows fs embed c hlen] at hi hx ⊢
      simp only [List.length_map] at hi
      rw [getD_map_of_lt _ _ i (by simpa using hi) ""]
      exact l2norm_normalize_of_ex_ne hx
  · intro qraw hq
    exact l2norm_normalize_of_ex_ne hq

/-- Witness for `normalization_invariant_nonzero`: the nonzero raw query
vector `[3, 4]` is normalised to exact unit norm. -/
theorem normalization_invariant_nonzero_witness :
    (∃ x ∈ ([3, 4] : List ℝ), x ≠ 0) ∧
    l2norm (sklearnNormalizeVec [3, 4]) = 1 :=
  ⟨⟨3, by simp, by norm_num⟩,
   (normalization_invariant_nonzero [] embedOne emptyCache).2 [3, 4]
     ⟨3, by simp, by norm_num⟩⟩

/-- Counterexample to C6 as stated: if the (opaque) embedding model
produces the zero vector for an image, the stored row is the zero vector,
whose L2 norm is 0 — not within `1e-5` of 1.  (The spec itself treats the
embedding model as an arbitrary opaque function, so its range cannot be
assumed to exclude 0; sklearn's `normalize` maps 0 to 0 by design.) -/
theorem zero_embedding_breaks_unit_norm :
    (compute_and_cache_features oneImageWalk embedZero emptyCache).1.2 =
      [[0, 0]] ∧
    l2norm [(0 : ℝ), 0] = 0 ∧
    ¬(|l2norm [(0 : ℝ), 0] - 1| ≤ 1 / 100000) := by
  have hnorm : l2norm [(0 : ℝ), 0] = 0 := by
    have : sumSq [(0 : ℝ), 0] = 0 := by norm_num [sumSq]
    simp [l2norm, this]
  have hlen : ¬((get_all_image_files oneImageWalk).length = 0) := by decide
  have hscan : get_all_image_files oneImageWalk = ["images/a.jpg"] := by decide
  refine ⟨?_, hnorm, by rw [hnorm]; norm_num⟩
  rw [build_rows oneImageWalk embedZero emptyCache hlen, hscan]
  simp only [List.map_cons, List.map_nil, extract_features, embedZero]
  rw [normalize_zero_vector (v := [(0 : ℝ), 0]) (by norm_num)]

/-- C10: sklearn's zero-norm guard makes L2 normalisation total — the
zero raw vector is mapped to the zero vector (no division-by-zero error
anywhere, the build is a total function) — and a zero stored row scores
exactly 0 against every query in the ranking's cosine-similarity
computation. -/
theorem zero_vector_normalizes_and_scores_zero (v : List ℝ)
    (h : ∀ x ∈ v, x = 0) :
    sklearnNormalizeVec v = v ∧ ∀ q : List ℝ, cosPair q v = 0 := by
  have h1 := normalize_zero_vector h
  refine ⟨h1, ?_⟩
  intro q
  unfold cosPair
  rw [h1]
  exact dot_all_zero_right _ v h

/-- Witness for `zero_vector_normalizes_and_scores_zero` at the concrete
zero vector `[0, 0]`. -/
theorem zero_vector_normalizes_and_scores_zero_witness :
    (∀ x ∈ ([0, 0] : List ℝ), x = 0) ∧
    (sklearnNormalizeVec [0, 0] = [0, 0] ∧
      ∀ q : List ℝ, cosPair q [0, 0] = 0) :=
  ⟨by norm_num, zero_vector_normalizes_and_scores_zero [0, 0] (by norm_num)⟩

/-! ### The lexicographic string order used by `sorted` -/

theorem charListLe_total : ∀ (a b : List Char),
    charListLe a b = true ∨ charListLe b a = true
  | [], _ => Or.inl rfl
  | _ :: _, [] => Or.inr rfl
  | a :: as, b :: bs => by
    rcases lt_trichotomy a b with h | h | h
    · left
      simp [charListLe, h]
    · subst h
      have := charListLe_total as bs
      simpa [charListLe] using this
    · right
      simp [charListLe, h]

theorem charListLe_trans : ∀ (a b c : List Char),
    charListLe a b = true → charListLe b c = true → charListLe a c = true
  | [], _, _, _, _ => rfl
  | _ :: _, [], _, h1, _ => by simp [charListLe] at h1
  | _ :: _, _ :: _, [], _, h2 => by simp [charListLe] at h2
  | a :: as, b :: bs, c :: cs, h1, h2 => by
    rcases lt_trichotomy a b with hab | hab | hab
    · rcases lt_trichotomy b c with hbc | hbc | hbc
      · simp [charListLe, lt_trans hab hbc]
      · subst hbc
        simp [charListLe, hab]
      · simp [charListLe, hbc, lt_asymm hbc] at h2
    · subst hab
      simp only [charListLe] at h1
      rw [if_neg (lt_irrefl a), if_neg (lt_irrefl a)] at h1
      rcases lt_trichotomy a c with hac | hac | hac
      · simp [charListLe, hac]
      · subst hac
        simp only [charListLe] at h2 ⊢
        rw [if_neg (lt_irrefl a), if_neg (lt_irrefl a)] at h2 ⊢
        exact charListLe_trans as bs cs h1 h2
      · simp [charListLe, hac, lt_asymm hac] at h2
    · simp [charListLe, hab, lt_asymm hab] at h1

theorem charListLe_antisymm : ∀ (a b : List Char),
    charListLe a b = true → charListLe b a = true → a = b
  | [], [], _, _ => rfl
  | [], _ :: _, _, h2 => by simp [charListLe] at h2
  | _ :: _, [], h1, _ => by simp [charListLe] at h1
  | a :: as, b :: bs, h1, h2 => by
    rcases lt_trichotomy a b with hab | hab | hab
    · simp [charListLe, hab, lt_asymm hab] at h2
    · subst hab
      simp only [charListLe] at h1 h2
      rw [if_neg (lt_irrefl a), if_neg (lt_irrefl a)] at h1 h2
      rw [charListLe_antisymm as bs h1 h2]
    · simp [charListLe, hab, lt_asymm hab] at h1

theorem strLeP_total (a b : String) : strLeP a b ∨ strLeP b a :=
  charListLe_total a.data b.data

theorem strLeP_trans (a b c : String) (h1 : strLeP a b) (h2 : strLeP b c) :
    strLeP a c :=
  charListLe_trans a.data b.data c.data h1 h2

theorem strLeP_antisymm (a b : String) (h1 : strLeP a b)
    (h2 : strLeP b a) : a = b := by
  have h := charListLe_antisymm a.data b.data h1 h2
  cases a
  cases b
  exact congrArg String.mk h

/-- C5: the corpus scan returns exactly the walked files whose names pass
the case-insensitive image-extension allow-list, joined to full paths and
sorted lexicographically on the full path string; consequently two scans
of the same fixed directory — even if `os.walk` enumerates its entries in
different orders — return the same ordered sequence. -/
theorem scan_exact_sorted_deterministic (fs fs' : Walk)
    (hperm : (walkPairs fs).Perm (walkPairs fs')) :
    ScanSpec fs ∧ get_all_image_files fs = get_all_image_files fs' := by
  haveI : IsTotal String strLeP := ⟨strLeP_total⟩
  haveI : IsTrans String strLeP := ⟨strLeP_trans⟩
  haveI : IsAntisymm String strLeP := ⟨strLeP_antisymm⟩
  refine ⟨⟨?_, ?_⟩, ?_⟩
  · intro p
    unfold get_all_image_files
    rw [List.Perm.mem_iff (List.perm_insertionSort _ _)]
    simp only [List.mem_map, List.mem_filter]
    constructor
    · rintro ⟨e, ⟨he, hext⟩, rfl⟩
      exact ⟨e, he, hext, rfl⟩
    · rintro ⟨e, he, hext, rfl⟩
      exact ⟨e, ⟨he, hext⟩, rfl⟩
  · exact List.sorted_insertionSort strLeP _
  · have hfiles :
        (((walkPairs fs).filter (fun e => isImageFile e.2)).map
          (fun e => pathJoin e.1 e.2)).Perm
        (((walkPairs fs').filter (fun e => isImageFile e.2)).map
          (fun e => pathJoin e.1 e.2)) :=
      (hperm.filter _).map _
    exact List.eq_of_perm_of_sorted
      ((List.perm_insertionSort _ _).trans
        (hfiles.trans (List.perm_insertionSort _ _).symm))
      (List.sorted_insertionSort strLeP _)
      (List.sorted_insertionSort strLeP _)

/-- Witness for `scan_exact_sorted_deterministic`: two enumeration orders
of the same directory contents. -/
theorem scan_exact_sorted_deterministic_witness :
    (walkPairs permWalkA).Perm (walkPairs permWalkB) ∧
    (ScanSpec permWalkA ∧
      get_all_image_files permWalkA = get_all_image_files permWalkB) :=
  ⟨by decide, scan_exact_sorted_deterministic permWalkA permWalkB (by decide)⟩

/-! ### The similarity ranking -/

theorem getD_map_neg (l : List ℝ) (i : ℕ) :
    (l.map (fun s => -s)).getD i 0 = -(l.getD i 0) := by
  induction l generalizing i with
  | nil => simp
  | cons x l ih =>
    cases i with
    | zero => rfl
    | succ n => simpa using ih n

/-- A vector that already has unit sum of squares is left unchanged by
sklearn's `normalize`. -/
theorem sklearnNormalizeVec_of_sumSq_one {v : List ℝ} (h : sumSq v = 1) :
    sklearnNormalizeVec v = v := by
  have hl : l2norm v = 1 := by rw [l2norm, h, Real.sqrt_one]
  simp only [sklearnNormalizeVec, hl, if_neg one_ne_zero]
  simp

theorem negSims_length (embed : String → List ℝ) (path : String)
    (M : List (List ℝ)) : (negSims embed path M).length = M.length := by
  simp [negSims, simsOf, cosine_similarity]

/-- C4: whenever the argsort oracle meets numpy's documented contract on
the key vector `-sims` actually passed to it, the ranking returns exactly
`min top_n n` `(filename, score)` pairs, ordered by non-increasing
cosine-similarity score; a corpus smaller than `top_n` is not an error,
just a shorter result (Python slicing clamps). -/
theorem ranking_top_n_clamped_and_sorted (args : List ℝ → List ℕ)
    (embed : String → List ℝ) (path : String) (M : List (List ℝ))
    (names : List String) (top_n : ℕ) (_htop : 1 ≤ top_n) (_hne : M ≠ [])
    (hA : ArgsortOK (negSims embed path M) (args (negSims embed path M))) :
    RankedOK args embed path M names top_n := by
  obtain ⟨hp, hs⟩ := hA
  have hplen : (args (negSims embed path M)).length = M.length := by
    rw [hp.length_eq, List.length_range, negSims_length]
  unfold RankedOK find_similar_images
  constructor
  · simp [List.length_take, hplen]
  · rw [List.pairwise_map]
    have hsTake :
        ((args (negSims embed path M)).take top_n).Pairwise
          (fun i j => (negSims embed path M).getD i 0 ≤
            (negSims embed path M).getD j 0) :=
      hs.sublist (List.take_sublist _ _)
    refine hsTake.imp ?_
    intro i j hij
    show (simsOf embed path M).getD j 0 ≤ (simsOf embed path M).getD i 0
    have hi := getD_map_neg (simsOf embed path M) i
    have hj := getD_map_neg (simsOf embed path M) j
    simp only [negSims, hi, hj] at hij
    exact (neg_le_neg_iff).mp hij

/-- Witness for `ranking_top_n_clamped_and_sorted`: a two-row corpus,
`top_n = 1`, and a concrete argsort oracle that is correct for the key
vector `[-1, 0]` arising there. -/
theorem ranking_top_n_clamped_and_sorted_witness :
    (1 ≤ 1 ∧ twoRowDb ≠ [] ∧
      ArgsortOK (negSims embedOne "q.png" twoRowDb)
        (constArgsort (negSims embedOne "q.png" twoRowDb))) ∧
    RankedOK constArgsort embedOne "q.png" twoRowDb twoNames 1 := by
  have h10 : sklearnNormalizeVec [(1 : ℝ), 0] = [1, 0] :=
    sklearnNormalizeVec_of_sumSq_one (by norm_num [sumSq])
  have h01 : sklearnNormalizeVec [(0 : ℝ), 1] = [0, 1] :=
    sklearnNormalizeVec_of_sumSq_one (by norm_num [sumSq])
  have hkey : negSims embedOne "q.png" twoRowDb = [-1, 0] := by
    simp [negSims, simsOf, cosine_similarity, cosPair, twoRowDb, embedOne,
      extract_features, h10, h01, dot]
  have hA : ArgsortOK (negSims embedOne "q.png" twoRowDb)
      (constArgsort (negSims embedOne "q.png" twoRowDb)) := by
    rw [hkey]
    constructor
    · decide
    · simp [constArgsort, List.pairwise_cons, List.getD]
  exact ⟨⟨le_refl 1, by simp [twoRowDb], hA⟩,
    ranking_top_n_clamped_and_sorted constArgsort embedOne "q.png" twoRowDb
      twoNames 1 (le_refl 1) (by simp [twoRowDb]) hA⟩

/-! ### The uploaded-query temp file -/

/-- C9 (amended): the temporary file created for an uploaded query image
is removed when the search completes successfully; but when embedding
extraction (or anything else inside the search) raises, the straight-line
script — which has no `try`/`finally` — aborts before reaching
`os.remove`, and the temporary file is left behind. -/
theorem temp_file_removed_on_success_only (args : List ℝ → List ℕ)
    (M : List (List ℝ)) (names : List String) (q : List ℝ)
    (e : QueryError) :
    (uploadedQueryRun args (.ok q) M names).2 = false ∧
    (uploadedQueryRun args (.error e) M names).2 = true :=
  ⟨rfl, rfl⟩

/-- Counterexample to C9 as stated: when extracting the query embedding
fails with a decode error, the script run ends with the temporary file
still present — `os.remove(query_path)` (line 145) is only reached on the
success path, so removal is NOT guaranteed "regardless of success or
failure". -/
theorem temp_file_leaks_on_failure :
    (uploadedQueryRun (fun _ => []) (.error .imageDecodeError) [] []).2 =
      true := rfl

/-! ### Tie-breaking of `np.argsort(-sims)` with the default kind -/

theorem getD_replicate (n : ℕ) (a d : ℝ) (i : ℕ) :
    (List.replicate n a).getD i d = if i < n then a else d := by
  induction n generalizing i with
  | zero => simp
  | succ n ih =>
    cases i with
    | zero => simp [List.replicate_succ]
    | succ k =>
      rw [List.replicate_succ, List.getD_cons_succ, ih k]
      simp [Nat.succ_lt_succ_iff]

/-- On the key vector `[-1.0] * 17` the comparisons `np.argsort` performs
reduce to the computable `tieCmp17`. -/
theorem replicate17_cmp_eq :
    (fun i j => decide ((List.replicate 17 (-1 : ℝ)).getD i 0 <
      (List.replicate 17 (-1 : ℝ)).getD j 0)) = tieCmp17 := by
  funext i j
  rw [getD_replicate, getD_replicate]
  by_cases hi : i < 17 <;> by_cases hj : j < 17
  · rw [if_pos hi, if_pos hj]
    have h : ¬((-1 : ℝ) < -1) := lt_irrefl _
    simp [h, tieCmp17, Nat.not_le.mpr hj]
  · rw [if_pos hi, if_neg hj]
    have h : (-1 : ℝ) < 0 := by norm_num
    simp [h, tieCmp17, hi, Nat.not_lt.mp hj]
  · rw [if_neg hi, if_pos hj]
    have h : ¬((0 : ℝ) < -1) := by norm_num
    simp [h, tieCmp17, hi]
  · rw [if_neg hi, if_neg hj]
    have h : ¬((0 : ℝ) < 0) := lt_irrefl _
    simp [h, tieCmp17, hi]

/-- numpy's introsort on seventeen all-equal keys: one median-of-3
partition pass scrambles the index order, the two halves then fall to the
(no-op, since all keys are equal) insertion sort.  The resulting
permutation is NOT the identity. -/
theorem argsortNp_seventeen_equal_keys :
    argsortNp (List.replicate 17 (-1 : ℝ)) =
      [0, 14, 13, 12, 11, 10, 9, 15, 8, 6, 5, 4, 3, 2, 1, 7, 16] := by
  unfold argsortNp
  rw [List.length_replicate, replicate17_cmp_eq]
  decide

/-- C1 (evaluation of the code at the failing input): on a corpus of
seventeen images that all have the same embedding `[1, 0]` as the query,
every one of the seventeen similarity scores ties at exactly `1.0`, yet
`find_similar_images` — via `np.argsort(-sims)` with the default unstable
`kind='quicksort'` — returns the tied entries in the order
`i0, i14, i13, i12, i11`: the entry with scan index 14 is placed before
the entries with scan indices 1…13, so equal-score entries are NOT
returned in original corpus order (a stable argsort, `kind='stable'`,
would return `i0, i1, i2, i3, i4`). -/
theorem tie_break_not_stable_on_seventeen_ties :
    find_similar_images argsortNp embedOne "q.jpg" seventeenRowDb
      seventeenNames TOP_N =
      [("i0", 1), ("i14", 1), ("i13", 1), ("i12", 1), ("i11", 1)] := by
  have h10 : sklearnNormalizeVec [(1 : ℝ), 0] = [1, 0] :=
    sklearnNormalizeVec_of_sumSq_one (by norm_num [sumSq])
  have hcos : cosPair [(1 : ℝ), 0] [(1 : ℝ), 0] = 1 := by
    norm_num [cosPair, h10, dot]
  have hsims : simsOf embedOne "q.jpg" seventeenRowDb =
      List.replicate 17 1 := by
    simp [simsOf, cosine_similarity, seventeenRowDb, List.map_replicate,
      extract_features, embedOne, h10, hcos]
  have hneg : negSims embedOne "q.jpg" seventeenRowDb =
      List.replicate 17 (-1) := by
    simp [negSims, hsims, List.map_replicate]
  unfold find_similar_images TOP_N
  rw [hneg, hsims, argsortNp_seventeen_equal_keys]
  norm_num [seventeenNames, List.getD, getD_replicate]

end SimilarImages
